import Mathlib

/-!
Verification of the disease-outbreak headline parser and the Africa outbreak
analyzer.  The parser (`disease_parser.py`) turns one headline into a
structured record; the analyzer (`africa_analyzer.py`) computes region-scoped
aggregate statistics over a list of such records.  Headlines and all other
text are modelled as `List Char`; the Python `in` substring test is modelled
by the boolean `containsSub`; the undefined iteration order of the Python set
`all_diseases` is modelled by an explicit order parameter (a list), so that
order-dependence can be stated and settled.
-/

/-- Convert a string literal to the `List Char` representation used throughout. -/
def chars (s : String) : List Char := s.data

/-- Python `str.lower()` on the character list. -/
def lowerStr (l : List Char) : List Char := l.map Char.toLower

/-- Boolean substring containment: Python `needle in hay`. -/
def containsSub (needle : List Char) : List Char → Bool
  | [] => needle.isEmpty
  | b :: t => needle.isPrefixOf (b :: t) || containsSub needle t

theorem containsSub_iff (needle : List Char) :
    ∀ hay : List Char, containsSub needle hay = true ↔ needle <:+: hay := by
  intro hay
  induction hay with
  | nil =>
    simp [containsSub, List.isEmpty_iff]
  | cons b t ih =>
    simp only [containsSub, Bool.or_eq_true, List.isPrefixOf_iff_prefix, ih,
      List.infix_cons_iff]

/-- The `high_priority` disease set of `disease_parser.py`. -/
def highPriorityDiseases : List (List Char) :=
  [chars "Ebola", chars "Malaria", chars "Cholera", chars "Tuberculosis", chars "HIV"]

/-- The `medium_priority` disease set of `disease_parser.py`. -/
def mediumPriorityDiseases : List (List Char) :=
  [chars "Measles", chars "Meningitis", chars "Rabies"]

/-- The `low_priority` disease set of `disease_parser.py`. -/
def lowPriorityDiseases : List (List Char) :=
  [chars "Influenza", chars "Hepatitis"]

/-- The union `all_diseases` of the three priority sets (given here in the
source-literal order; extraction takes an explicit iteration order). -/
def allDiseases : List (List Char) :=
  highPriorityDiseases ++ mediumPriorityDiseases ++ lowPriorityDiseases

/-- The `east_african_countries` table: country name with its city aliases,
in the source-literal order. -/
def eastAfricanCountries : List (List Char × List (List Char)) :=
  [ (chars "Uganda", [chars "Kampala", chars "Entebbe", chars "Gulu", chars "Mbarara"]),
    (chars "Kenya", [chars "Nairobi", chars "Mombasa", chars "Kisumu"]),
    (chars "Tanzania", [chars "Dar es Salaam", chars "Arusha", chars "Zanzibar"]),
    (chars "Rwanda", [chars "Kigali", chars "Butare"]),
    (chars "Burundi", [chars "Bujumbura", chars "Gitega"]),
    (chars "South Sudan", [chars "Juba", chars "Malakal"]),
    (chars "Ethiopia", [chars "Addis Ababa", chars "Dire Dawa"]),
    (chars "Somalia", [chars "Mogadishu", chars "Hargeisa"]) ]

/-- Model of `all_locations`: every city alias together with every country name
(membership-only set, order irrelevant to every use). -/
def allLocations : List (List Char) :=
  (eastAfricanCountries.map Prod.snd).flatten ++ eastAfricanCountries.map Prod.fst

/-- The `high_severity` keyword list of `_analyze_severity`. -/
def highSeverityKeywords : List (List Char) :=
  [chars "outbreak", chars "epidemic", chars "death", chars "fatal",
   chars "emergency", chars "claims lives", chars "surge"]

/-- The `medium_severity` keyword list of `_analyze_severity`. -/
def mediumSeverityKeywords : List (List Char) :=
  [chars "spread", chars "cases", chars "infected", chars "confirmed",
   chars "rise", chars "increase", chars "alert"]

/-- Severity tier produced by `_analyze_severity`. -/
inductive Severity where
  | High
  | Medium
  | Low
deriving DecidableEq

/-- The location dictionary built by `_extract_location`. -/
structure LocationInfo where
  country : Option (List Char)
  city : Option (List Char)
  isEastAfrica : Bool
  isUganda : Bool
deriving DecidableEq

/-- The region dictionary built by `_classify_region`. -/
structure RegionFlags where
  isAfrica : Bool
  isEastAfrica : Bool
  isUganda : Bool
deriving DecidableEq

/-- Model of `_extract_disease`: first catalog name (in the given iteration order of
`all_diseases`) whose lowercase form occurs in the lowercased headline;
`Unknown` when none does. -/
def extractDisease (order : List (List Char)) (headline : List Char) : List Char :=
  match order.find? (fun d => containsSub (lowerStr d) (lowerStr headline)) with
  | some d => d
  | none => chars "Unknown"

/-- The disease-priority contribution of `_analyze_severity`. -/
def diseasePriorityScore (d : List Char) : Nat :=
  if d ∈ highPriorityDiseases then 2
  else if d ∈ mediumPriorityDiseases then 1
  else 0

/-- The keyword contribution of `_analyze_severity`. -/
def keywordScore (headline : List Char) : Nat :=
  if highSeverityKeywords.any (fun w => containsSub w (lowerStr headline)) then 2
  else if mediumSeverityKeywords.any (fun w => containsSub w (lowerStr headline)) then 1
  else 0

/-- Model of `_analyze_severity`: map the score to the three-level tier. -/
def analyzeSeverity (order : List (List Char)) (headline : List Char) : Severity :=
  let severityBase :=
    diseasePriorityScore (extractDisease order headline) + keywordScore headline
  if 3 ≤ severityBase then .High
  else if 1 ≤ severityBase then .Medium
  else .Low

/-- One iteration of the country loop of `_extract_location`: check the
country name, then scan its city aliases (`break` after the first hit). -/
def locStep (headline : List Char) (loc : LocationInfo)
    (entry : List Char × List (List Char)) : LocationInfo :=
  let country := entry.1
  let loc1 :=
    if containsSub country headline then
      { loc with country := some country, isEastAfrica := true,
                 isUganda := loc.isUganda || (country == chars "Uganda") }
    else loc
  match entry.2.find? (fun city => containsSub city headline) with
  | some city =>
      { loc1 with city := some city, country := some country, isEastAfrica := true,
                  isUganda := loc1.isUganda || (country == chars "Uganda") }
  | none => loc1

/-- Model of `_extract_location`. -/
def extractLocation (headline : List Char) : LocationInfo :=
  eastAfricanCountries.foldl (locStep headline)
    { country := none, city := none, isEastAfrica := false, isUganda := false }

/-- Model of `_is_african_location`. -/
def isAfricanLocation (headline : List Char) : Bool :=
  allLocations.any (fun l => containsSub l headline)

/-- Model of `_classify_region`: re-runs `_extract_location` on the same headline and
copies its flags; `is_africa` is true when a country was resolved, else the
broader keyword fallback is used. -/
def classifyRegion (headline : List Char) : RegionFlags :=
  let location := extractLocation headline
  { isAfrica := if location.country.isSome then true else isAfricanLocation headline,
    isEastAfrica := location.isEastAfrica,
    isUganda := location.isUganda }

/-- Model of `_extract_date`: a leading `YYYY-MM-DD:` token, else absent. -/
def extractDate (headline : List Char) : Option (List Char) :=
  match headline with
  | a :: b :: c :: d :: '-' :: e :: f :: '-' :: g :: i :: ':' :: _ =>
      if [a, b, c, d, e, f, g, i].all Char.isDigit then
        some [a, b, c, d, '-', e, f, '-', g, i]
      else none
  | _ => none

/-- Python `str.strip()`. -/
def stripStr (l : List Char) : List Char :=
  ((l.dropWhile Char.isWhitespace).reverse.dropWhile Char.isWhitespace).reverse

/-- The record built by `parse_headline` (the geocoding enrichment is the
out-of-scope external collaborator and carries no claim). -/
structure ParsedRecord where
  headline : List Char
  date : Option (List Char)
  disease : List Char
  location : LocationInfo
  severity : Severity
  region : RegionFlags
deriving DecidableEq

/-- Model of `parse_headline`. -/
def parseHeadline (order : List (List Char)) (h : List Char) : ParsedRecord :=
  { headline := stripStr h,
    date := extractDate h,
    disease := extractDisease order h,
    location := extractLocation h,
    severity := analyzeSeverity order h,
    region := classifyRegion h }

/-- Modelled from the spec: the tier mapping written in the claim text,
`score >= 3 -> High; score >= 1 -> Medium; else Low`. -/
def severityFromScore (score : Nat) : Severity :=
  if 3 ≤ score then .High
  else if 1 ≤ score then .Medium
  else .Low

/-- Rank of a tier, for stating tier comparisons (High > Medium > Low). -/
def sevRank : Severity → Nat
  | .Low => 0
  | .Medium => 1
  | .High => 2

/-- Strict lexicographic comparison on character lists. -/
def lexLt : List Char → List Char → Bool
  | [], [] => false
  | [], _ :: _ => true
  | _ :: _, [] => false
  | a :: as, b :: bs => if a < b then true else if b < a then false else lexLt as bs

/-- Modelled from the spec: disease extraction resolved deterministically,
preferring the longest matching catalog name, then the lexicographically
first one. -/
def specExtractDisease (headline : List Char) : List Char :=
  match allDiseases.filter (fun d => containsSub (lowerStr d) (lowerStr headline)) with
  | [] => chars "Unknown"
  | x :: xs =>
      xs.foldl (fun best d =>
        if best.length < d.length || (d.length = best.length && lexLt d best) then d
        else best) x

/-- Insert into a sorted list with respect to the boolean relation `le`. -/
def insertLe {α : Type} (le : α → α → Bool) (a : α) : List α → List α
  | [] => [a]
  | b :: l => if le a b then a :: b :: l else b :: insertLe le a l

/-- Insertion sort with respect to the boolean relation `le`; models the
(unstable, but order-correct) pandas `sort_values`. -/
def insSort {α : Type} (le : α → α → Bool) : List α → List α
  | [] => []
  | a :: l => insertLe le a (insSort le l)

theorem insertLe_perm {α : Type} (le : α → α → Bool) (a : α) :
    ∀ l : List α, (insertLe le a l).Perm (a :: l) := by
  intro l
  induction l with
  | nil => exact List.Perm.refl _
  | cons b t ih =>
    by_cases h : le a b
    · simp [insertLe, h]
    · simp only [insertLe, h, Bool.false_eq_true, if_false]
      exact (ih.cons b).trans (List.Perm.swap a b t)

theorem insSort_perm {α : Type} (le : α → α → Bool) :
    ∀ l : List α, (insSort le l).Perm l := by
  intro l
  induction l with
  | nil => exact List.Perm.refl _
  | cons a t ih =>
    exact (insertLe_perm le a (insSort le t)).trans (ih.cons a)

theorem insertLe_sorted {α : Type} (le : α → α → Bool)
    (htot : ∀ x y, le x y = false → le y x = true)
    (htrans : ∀ x y z, le x y = true → le y z = true → le x z = true)
    (a : α) : ∀ l : List α, l.Sorted (fun x y => le x y = true) →
    (insertLe le a l).Sorted (fun x y => le x y = true) := by
  intro l
  induction l with
  | nil => intro _; simp [insertLe, List.Sorted]
  | cons b t ih =>
    intro hs
    rw [List.sorted_cons] at hs
    by_cases h : le a b
    · simp only [insertLe, h, if_true]
      rw [List.sorted_cons]
      refine ⟨?_, by rw [List.sorted_cons]; exact hs⟩
      intro x hx
      rcases List.mem_cons.mp hx with rfl | hx
      · exact h
      · exact htrans a b x h (hs.1 x hx)
    · simp only [insertLe, h, Bool.false_eq_true, if_false]
      rw [List.sorted_cons]
      refine ⟨?_, ih hs.2⟩
      intro x hx
      rcases List.mem_cons.mp ((insertLe_perm le a t).mem_iff.mp hx) with hxa | hx
      · rw [hxa]; exact htot a b (by simpa using h)
      · exact hs.1 x hx

theorem insSort_sorted {α : Type} (le : α → α → Bool)
    (htot : ∀ x y, le x y = false → le y x = true)
    (htrans : ∀ x y z, le x y = true → le y z = true → le x z = true) :
    ∀ l : List α, (insSort le l).Sorted (fun x y => le x y = true) := by
  intro l
  induction l with
  | nil => simp [insSort, List.Sorted]
  | cons a t ih => exact insertLe_sorted le htot htrans a _ ih

/-- Model of `pandas.unique`-style first-occurrence deduplication (later duplicates
of the head are removed from the deduplicated tail). -/
def uniqueKeepFirst {α : Type} [DecidableEq α] : List α → List α
  | [] => []
  | a :: l => a :: (uniqueKeepFirst l).filter (fun x => x ≠ a)

/-- Running cumulative sums starting from `acc` (pandas `cumsum`). -/
def cumulFrom (acc : Nat) : List Nat → List Nat
  | [] => []
  | c :: cs => (acc + c) :: cumulFrom (acc + c) cs

/-- One row of the DataFrame consumed by `AfricaOutbreakAnalyzer`: the fields
the analyzer reads (`date` as an integer day ordinal, absent for `NaT`). -/
structure OutbreakRecord where
  date : Option Int
  disease : List Char
  severity : Severity
  locCountry : Option (List Char)
  locCity : Option (List Char)
  locIsEastAfrica : Bool
  locIsUganda : Bool
deriving DecidableEq

/-- The `disease_priority` table of `AfricaOutbreakAnalyzer`. -/
def diseasePriorityTable : List (List Char × List Char) :=
  [ (chars "Ebola", chars "high"), (chars "Malaria", chars "high"),
    (chars "Cholera", chars "high"), (chars "Tuberculosis", chars "high"),
    (chars "HIV", chars "high"), (chars "Measles", chars "medium"),
    (chars "Meningitis", chars "medium"), (chars "Rabies", chars "medium"),
    (chars "Influenza", chars "low"), (chars "Hepatitis", chars "low") ]

/-- Model of `disease_priority.get(d)`: `None` for unlisted names. -/
def diseasePriority (d : List Char) : Option (List Char) :=
  List.lookup d diseasePriorityTable

/-- The region dispatch shared by every analyzer operation: `'uganda'` and
`'east_africa'` select the corresponding pre-filtered frames, every other
tag falls through to the full dataset. -/
def regionData (ds : List OutbreakRecord) (region : List Char) : List OutbreakRecord :=
  if region = chars "uganda" then ds.filter (fun r => r.locIsUganda)
  else if region = chars "east_africa" then ds.filter (fun r => r.locIsEastAfrica)
  else ds

/-- Model of `Series.max()` over the date column: skips absent dates, `None` (NaT)
when no dated row exists. -/
def maxDateOf (data : List OutbreakRecord) : Option Int :=
  match data.filterMap (fun r => r.date) with
  | [] => none
  | x :: xs => some (xs.foldl max x)

/-- Model of `Series.min()` over the date column, skipping absent dates. -/
def minDateOf (data : List OutbreakRecord) : Option Int :=
  match data.filterMap (fun r => r.date) with
  | [] => none
  | x :: xs => some (xs.foldl min x)

/-- Severity counts (`value_counts` over the severity column, with the three
possible values made explicit). -/
structure SevCounts where
  high : Nat
  medium : Nat
  low : Nat
deriving DecidableEq

def sevCountsOf (data : List OutbreakRecord) : SevCounts :=
  { high := data.countP (fun r => r.severity == Severity.High),
    medium := data.countP (fun r => r.severity == Severity.Medium),
    low := data.countP (fun r => r.severity == Severity.Low) }

/-- One value of `analyze_disease_distribution`. -/
structure DiseaseStats where
  count : Nat
  sevCounts : SevCounts
  priority : List Char
  latestOutbreak : Option Int
deriving DecidableEq

/-- One per-disease cell: `strftime` on a `NaT` maximum raises, which is the
error case; the `empty` guard of the source returns `None` instead. -/
def diseaseCell (data : List OutbreakRecord) (d : List Char) :
    Except Unit DiseaseStats :=
  let diseaseData := data.filter (fun r => r.disease == d)
  match (if diseaseData.isEmpty then Except.ok none
         else match maxDateOf diseaseData with
           | some m => Except.ok (some m)
           | none => Except.error ()) with
  | Except.error e => Except.error e
  | Except.ok latest =>
      Except.ok { count := diseaseData.length,
                  sevCounts := sevCountsOf diseaseData,
                  priority := (diseasePriority d).getD (chars "unknown"),
                  latestOutbreak := latest }

def diseaseCells (data : List OutbreakRecord) :
    List (List Char) → Except Unit (List (List Char × DiseaseStats))
  | [] => Except.ok []
  | d :: rest =>
      match diseaseCell data d with
      | Except.error e => Except.error e
      | Except.ok c =>
          match diseaseCells data rest with
          | Except.error e => Except.error e
          | Except.ok cs => Except.ok ((d, c) :: cs)

/-- Model of `analyze_disease_distribution` on an already-selected frame. -/
def diseaseDistributionCore (data : List OutbreakRecord) :
    Except Unit (List (List Char × DiseaseStats)) :=
  diseaseCells data (uniqueKeepFirst (data.map (fun r => r.disease)))

/-- Model of `analyze_disease_distribution`. -/
def analyzeDiseaseDistribution (ds : List OutbreakRecord) (region : List Char) :
    Except Unit (List (List Char × DiseaseStats)) :=
  diseaseDistributionCore (regionData ds region)

/-- One value of `analyze_severity_trends`. -/
structure SevTrendEntry where
  count : Nat
  diseaseCounts : List (List Char × Nat)
  percentage : ℚ
deriving DecidableEq

/-- Model of `analyze_severity_trends` on an already-selected frame.  `now` stands for
`datetime.now()`; a window of `some 0` is falsy in the source and ignored. -/
def severityTrendsCore (data : List OutbreakRecord) (timeWindow : Option Nat)
    (now : Int) : List (Severity × SevTrendEntry) :=
  let data :=
    match timeWindow with
    | none => data
    | some w =>
        if w = 0 then data
        else data.filter (fun r =>
          match r.date with
          | some d => decide (now - (w : Int) ≤ d)
          | none => false)
  [Severity.High, Severity.Medium, Severity.Low].map (fun sv =>
    let severityData := data.filter (fun r => r.severity == sv)
    (sv, { count := severityData.length,
           diseaseCounts :=
             (uniqueKeepFirst (severityData.map (fun r => r.disease))).map
               (fun d => (d, severityData.countP (fun r => r.disease == d))),
           percentage :=
             if 0 < data.length then
               (severityData.length : ℚ) / (data.length : ℚ) * 100
             else 0 }))

/-- Model of `analyze_severity_trends`. -/
def analyzeSeverityTrends (ds : List OutbreakRecord) (region : List Char)
    (timeWindow : Option Nat) (now : Int) : List (Severity × SevTrendEntry) :=
  severityTrendsCore (regionData ds region) timeWindow now

/-- The `severity_levels` dictionary of `get_high_priority_outbreaks`;
lookup of any other name is the `KeyError` case. -/
def severityLevels (s : List Char) : Option Nat :=
  if s = chars "High" then some 3
  else if s = chars "Medium" then some 2
  else if s = chars "Low" then some 1
  else none

/-- The same numeric level applied to a record's (always valid) severity. -/
def sevLevel : Severity → Nat
  | .High => 3
  | .Medium => 2
  | .Low => 1

/-- Date-descending comparison used to model `sort_values('date',
ascending=False)`: dated rows in decreasing order, absent dates last. -/
def dateDescLe (a b : OutbreakRecord) : Bool :=
  match a.date, b.date with
  | some x, some y => decide (y ≤ x)
  | some _, none => true
  | none, some _ => false
  | none, none => true

/-- Model of `get_high_priority_outbreaks` on an already-selected frame: an
unrecognized `min_severity` raises (`KeyError`), otherwise filter by
severity level and high disease priority and sort by date descending. -/
def highPriorityCore (data : List OutbreakRecord) (minSeverity : List Char) :
    Except Unit (List OutbreakRecord) :=
  match severityLevels minSeverity with
  | none => Except.error ()
  | some lvl =>
      Except.ok (insSort dateDescLe (data.filter (fun r =>
        decide (lvl ≤ sevLevel r.severity) &&
        (diseasePriority r.disease == some (chars "high")))))

/-- Model of `get_high_priority_outbreaks`. -/
def getHighPriorityOutbreaks (ds : List OutbreakRecord) (region minSeverity : List Char) :
    Except Unit (List OutbreakRecord) :=
  highPriorityCore (regionData ds region) minSeverity

/-- The disease/time-window filters applied by `analyze_temporal_patterns`
before grouping (`disease` and `time_window` are Python-truthy checks, so an
empty disease name or a zero window is ignored; an absent date never passes
the window comparison). -/
def tpFiltered (data : List OutbreakRecord) (disease : Option (List Char))
    (timeWindow : Option Nat) (now : Int) : List OutbreakRecord :=
  let d1 :=
    match disease with
    | none => data
    | some s => if s = [] then data else data.filter (fun r => r.disease == s)
  match timeWindow with
  | none => d1
  | some w =>
      if w = 0 then d1
      else d1.filter (fun r =>
        match r.date with
        | some d => decide (now - (w : Int) ≤ d)
        | none => false)

/-- The distinct dates of the grouped frame, ascending (`groupby` sorts its
keys and drops rows whose date is absent). -/
def tpDates (data : List OutbreakRecord) : List Int :=
  insSort (fun a b => decide (a ≤ b))
    (uniqueKeepFirst (data.filterMap (fun r => r.date)))

/-- Per-date row totals of the grouped frame. -/
def tpCounts (data : List OutbreakRecord) : List Nat :=
  (tpDates data).map (fun d => data.countP (fun r => r.date == some d))

/-- The `cumulative_total` column. -/
def tpCumulative (data : List OutbreakRecord) : List Nat :=
  cumulFrom 0 (tpCounts data)

/-- Model of `analyze_temporal_patterns` on an already-selected frame: per-date counts
(ascending dates) and the cumulative column. -/
def temporalCore (data : List OutbreakRecord) (disease : Option (List Char))
    (timeWindow : Option Nat) (now : Int) : List (Int × Nat) × List Nat :=
  let d := tpFiltered data disease timeWindow now
  ((tpDates d).map (fun x => (x, d.countP (fun r => r.date == some x))),
   tpCumulative d)

/-- Model of `analyze_temporal_patterns`. -/
def analyzeTemporalPatterns (ds : List OutbreakRecord) (region : List Char)
    (disease : Option (List Char)) (timeWindow : Option Nat) (now : Int) :
    List (Int × Nat) × List Nat :=
  temporalCore (regionData ds region) disease timeWindow now

/-- Priority-tier counts of `get_summary_statistics` (`map` through the
priority dict leaves unlisted diseases as NaN, which `value_counts` drops). -/
structure PriorityCounts where
  high : Nat
  medium : Nat
  low : Nat
deriving DecidableEq

/-- The `most_common_disease` cell: pandas `mode()` sorts the modal values,
so `iloc[0]` is the lexicographically first disease of maximal count. -/
def modeDisease (data : List OutbreakRecord) : List Char :=
  let count := fun d => data.countP (fun r => r.disease == d)
  match uniqueKeepFirst (data.map (fun r => r.disease)) with
  | [] => []
  | x :: xs =>
      xs.foldl (fun best d =>
        if count best < count d || (count d = count best && lexLt d best) then d
        else best) x

/-- The statistics dictionary of `get_summary_statistics` (non-empty case). -/
structure SummaryStats where
  totalOutbreaks : Nat
  uniqueDiseases : Nat
  sevCounts : SevCounts
  mostCommonDisease : List Char
  highSeverityCount : Nat
  firstOutbreak : Int
  latestOutbreak : Int
  priorityCounts : PriorityCounts
  countriesAffected : Nat
  citiesAffected : Nat
  recentTotal : Nat
  recentSevCounts : SevCounts
deriving DecidableEq

/-- Result of `get_summary_statistics`: the empty frame returns the special
message dictionary; otherwise the statistics (or the `strftime`-on-NaT
error when the non-empty frame has no dated record). -/
inductive SummaryResult where
  | empty (message : List Char)
  | stats (s : SummaryStats)
deriving DecidableEq

/-- Model of `get_summary_statistics` on an already-selected frame. -/
def summaryCore (data : List OutbreakRecord) (region : List Char) :
    Except Unit SummaryResult :=
  if data.isEmpty then
    Except.ok (SummaryResult.empty (chars "No outbreak data available for " ++ region))
  else
    match minDateOf data, maxDateOf data with
    | some lo, some hi =>
        let cutoff := hi - 30
        let recent := data.filter (fun r =>
          match r.date with
          | some d => decide (cutoff ≤ d)
          | none => false)
        Except.ok (SummaryResult.stats
          { totalOutbreaks := data.length,
            uniqueDiseases := (uniqueKeepFirst (data.map (fun r => r.disease))).length,
            sevCounts := sevCountsOf data,
            mostCommonDisease := modeDisease data,
            highSeverityCount := data.countP (fun r => r.severity == Severity.High),
            firstOutbreak := lo,
            latestOutbreak := hi,
            priorityCounts :=
              { high := data.countP (fun r => diseasePriority r.disease == some (chars "high")),
                medium := data.countP (fun r => diseasePriority r.disease == some (chars "medium")),
                low := data.countP (fun r => diseasePriority r.disease == some (chars "low")) },
            countriesAffected :=
              (uniqueKeepFirst (data.filterMap (fun r => r.locCountry))).length,
            citiesAffected :=
              (uniqueKeepFirst (data.filterMap (fun r => r.locCity))).length,
            recentTotal := recent.length,
            recentSevCounts := sevCountsOf recent })
    | _, _ => Except.error ()

/-- Model of `get_summary_statistics`. -/
def getSummaryStatistics (ds : List OutbreakRecord) (region : List Char) :
    Except Unit SummaryResult :=
  summaryCore (regionData ds region) region

/-- Projection used to observe the reported total of a summary result. -/
def summaryTotal : Except Unit SummaryResult → Option Nat
  | Except.ok (SummaryResult.stats s) => some s.totalOutbreaks
  | Except.ok (SummaryResult.empty _) => some 0
  | Except.error _ => none

theorem find?_eq_of_unique {α : Type} {p : α → Bool} {a : α} :
    ∀ {l : List α}, a ∈ l → p a = true → (∀ x ∈ l, p x = true → x = a) →
    l.find? p = some a := by
  intro l
  induction l with
  | nil => intro h; cases h
  | cons b t ih =>
    intro hmem hpa huniq
    by_cases hb : p b
    · rw [List.find?_cons_of_pos _ hb]
      rw [huniq b (List.mem_cons_self b t) hb]
    · rw [List.find?_cons_of_neg _ hb]
      rcases List.mem_cons.mp hmem with hab | hat
      · exact absurd (hab ▸ hpa) hb
      · exact ih hat hpa (fun x hx hpx => huniq x (List.mem_cons_of_mem b hx) hpx)

def ebolaKampala : List Char := chars "Ebola outbreak in Kampala"

/-- Claim C1: for every headline the severity returned by `parse_headline` is
determined by the integer score `diseasePriorityScore + keywordScore` mapped
through the tier thresholds (>= 3 High, >= 1 Medium, else Low); for the
headline "Ebola outbreak in Kampala" the score is 2 + 2 = 4 and the severity
is High, for every iteration order of the disease set. -/
theorem claim_C1 :
    (∀ order h, (parseHeadline order h).severity =
      severityFromScore (diseasePriorityScore (extractDisease order h) + keywordScore h)) ∧
    (∀ order : List (List Char), order.Perm allDiseases →
      extractDisease order ebolaKampala = chars "Ebola" ∧
      diseasePriorityScore (extractDisease order ebolaKampala) = 2 ∧
      keywordScore ebolaKampala = 2 ∧
      (parseHeadline order ebolaKampala).severity = Severity.High) := by
  constructor
  · intro order h
    rfl
  · intro order hperm
    have hext : extractDisease order ebolaKampala = chars "Ebola" := by
      have hmem : chars "Ebola" ∈ order := hperm.mem_iff.mpr (by decide)
      have hkey : ∀ y ∈ allDiseases,
          containsSub (lowerStr y) (lowerStr ebolaKampala) = true → y = chars "Ebola" := by
        decide
      have huniq : ∀ x ∈ order,
          containsSub (lowerStr x) (lowerStr ebolaKampala) = true → x = chars "Ebola" :=
        fun x hx => hkey x (hperm.mem_iff.mp hx)
      unfold extractDisease
      rw [find?_eq_of_unique hmem (by decide) huniq]
    refine ⟨hext, ?_, ?_, ?_⟩
    · rw [hext]; decide
    · decide
    · have h1 : (parseHeadline order ebolaKampala).severity =
          severityFromScore (diseasePriorityScore (extractDisease order ebolaKampala) +
            keywordScore ebolaKampala) := rfl
      rw [h1, hext]
      decide

theorem claim_C1_witness :
    extractDisease allDiseases ebolaKampala = chars "Ebola" ∧
    (parseHeadline allDiseases ebolaKampala).severity = Severity.High := by
  have h := claim_C1.2 allDiseases (List.Perm.refl _)
  exact ⟨h.1, h.2.2.2⟩

def archiveHeadline : List Char := chars "Archives in Kampala reopened"

/-- Claim C10: disease extraction is raw case-insensitive substring
containment with no word-boundary check: whenever any catalog name occurs in
the lowercased headline — even inside a longer unrelated word — the parsed
disease is that catalog name rather than Unknown; in particular
"Archives in Kampala reopened" is classified as HIV via the letters 'hiv'
inside "Archives", for every iteration order of the disease set. -/
theorem claim_C10 : ∀ order : List (List Char), order.Perm allDiseases →
    (∀ h : List Char,
      (∃ d, d ∈ allDiseases ∧ containsSub (lowerStr d) (lowerStr h) = true) →
      (parseHeadline order h).disease ≠ chars "Unknown") ∧
    (parseHeadline order archiveHeadline).disease = chars "HIV" := by
  intro order hperm
  constructor
  · intro h hex
    obtain ⟨d, hd, hsub⟩ := hex
    have hda : d ∈ order := hperm.mem_iff.mpr hd
    show extractDisease order h ≠ chars "Unknown"
    cases hfind : order.find? (fun x => containsSub (lowerStr x) (lowerStr h)) with
    | none =>
      exact absurd hsub (List.find?_eq_none.mp hfind d hda)
    | some x =>
      have hx : x ∈ allDiseases := hperm.mem_iff.mp (List.mem_of_find?_eq_some hfind)
      have hne : ∀ y ∈ allDiseases, y ≠ chars "Unknown" := by decide
      unfold extractDisease
      rw [hfind]
      exact hne x hx
  · show extractDisease order archiveHeadline = chars "HIV"
    have hmem : chars "HIV" ∈ order := hperm.mem_iff.mpr (by decide)
    have hkey : ∀ y ∈ allDiseases,
        containsSub (lowerStr y) (lowerStr archiveHeadline) = true → y = chars "HIV" := by
      decide
    unfold extractDisease
    rw [find?_eq_of_unique hmem (by decide) (fun x hx => hkey x (hperm.mem_iff.mp hx))]

theorem claim_C10_witness :
    (parseHeadline allDiseases archiveHeadline).disease ≠ chars "Unknown" ∧
    (parseHeadline allDiseases archiveHeadline).disease = chars "HIV" := by
  have h := claim_C10 allDiseases (List.Perm.refl _)
  exact ⟨h.1 archiveHeadline ⟨chars "HIV", by decide, by decide⟩, h.2⟩

/-- Invariant maintained by the country loop of `_extract_location`. -/
def LocInv (loc : LocationInfo) : Prop :=
  (loc.isUganda = true → loc.isEastAfrica = true) ∧
  (loc.isEastAfrica = true → loc.country.isSome = true)

theorem locStep_inv (h : List Char) (loc : LocationInfo)
    (entry : List Char × List (List Char)) (hinv : LocInv loc) :
    LocInv (locStep h loc entry) := by
  unfold locStep
  cases hfind : entry.2.find? (fun city => containsSub city h) with
  | some city =>
    exact ⟨fun _ => rfl, fun _ => rfl⟩
  | none =>
    by_cases hc : containsSub entry.1 h
    · simp only [hc, if_true]
      exact ⟨fun _ => rfl, fun _ => rfl⟩
    · simp only [hc, Bool.false_eq_true, if_false]
      exact hinv

theorem foldl_locInv (h : List Char) :
    ∀ (l : List (List Char × List (List Char))) (loc : LocationInfo),
    LocInv loc → LocInv (l.foldl (locStep h) loc) := by
  intro l
  induction l with
  | nil => intro loc hinv; exact hinv
  | cons e t ih =>
    intro loc hinv
    exact ih _ (locStep_inv h loc e hinv)

theorem extractLocation_inv (h : List Char) : LocInv (extractLocation h) :=
  foldl_locInv h eastAfricanCountries _
    ⟨fun hx => Bool.noConfusion hx, fun hx => Bool.noConfusion hx⟩

/-- Claim C4: every record produced by `parse_headline` satisfies the
implication chain on its region flags (isUganda implies isEastAfrica implies
isAfrica), and isUganda implies isEastAfrica on the location flags. -/
theorem claim_C4 : ∀ (order : List (List Char)) (h : List Char),
    ((parseHeadline order h).location.isUganda = true →
      (parseHeadline order h).location.isEastAfrica = true) ∧
    ((parseHeadline order h).region.isUganda = true →
      (parseHeadline order h).region.isEastAfrica = true) ∧
    ((parseHeadline order h).region.isEastAfrica = true →
      (parseHeadline order h).region.isAfrica = true) := by
  intro order h
  have hinv := extractLocation_inv h
  refine ⟨hinv.1, hinv.1, ?_⟩
  intro hea
  have hc : (extractLocation h).country.isSome = true := hinv.2 hea
  show (if (extractLocation h).country.isSome then true else isAfricanLocation h) = true
  rw [hc]
  simp

theorem claim_C4_witness :
    (parseHeadline allDiseases ebolaKampala).location.isEastAfrica = true ∧
    (parseHeadline allDiseases ebolaKampala).region.isEastAfrica = true ∧
    (parseHeadline allDiseases ebolaKampala).region.isAfrica = true := by
  have h := claim_C4 allDiseases ebolaKampala
  exact ⟨h.1 (by decide), h.2.1 (by decide), h.2.2 (by decide)⟩

/-- Claim C8: the region flags of every parsed record equal the flags of the
single location-resolution result (`_classify_region` re-runs the same pure
`_extract_location`, so the two computations always agree), and `is_africa`
is true whenever a country was resolved. -/
theorem claim_C8 : ∀ (order : List (List Char)) (h : List Char),
    (parseHeadline order h).region.isEastAfrica =
      (parseHeadline order h).location.isEastAfrica ∧
    (parseHeadline order h).region.isUganda =
      (parseHeadline order h).location.isUganda ∧
    ((parseHeadline order h).location.country.isSome = true →
      (parseHeadline order h).region.isAfrica = true) := by
  intro order h
  refine ⟨rfl, rfl, ?_⟩
  intro hc
  have hc2 : (extractLocation h).country.isSome = true := hc
  show (if (extractLocation h).country.isSome then true else isAfricanLocation h) = true
  rw [hc2]
  simp

theorem claim_C8_witness :
    (parseHeadline allDiseases ebolaKampala).region.isEastAfrica =
      (parseHeadline allDiseases ebolaKampala).location.isEastAfrica ∧
    (parseHeadline allDiseases ebolaKampala).region.isAfrica = true := by
  have h := claim_C8 allDiseases ebolaKampala
  exact ⟨h.1, h.2.2 (by decide)⟩

/-- An iteration order of the disease set that lists HIV first; as a
permutation of `all_diseases` it is one of the orders the Python set may
present. -/
def hivFirstOrder : List (List Char) :=
  [chars "HIV", chars "Ebola", chars "Malaria", chars "Cholera", chars "Tuberculosis",
   chars "Measles", chars "Meningitis", chars "Rabies", chars "Influenza", chars "Hepatitis"]

def malariaHivHeadline : List Char := chars "Malaria and HIV cases rise"

/-- Claim C2 divergence: on a headline containing two catalog names the
extraction result of `_extract_disease` depends on the iteration order of
the `all_diseases` set — an HIV-first order yields HIV while the
source-literal order yields Malaria — and the HIV-first result differs from
the longest-match-then-lexicographic resolution required by the claim. -/
theorem claim_C2_divergence :
    hivFirstOrder.Perm allDiseases ∧
    extractDisease hivFirstOrder malariaHivHeadline = chars "HIV" ∧
    extractDisease allDiseases malariaHivHeadline = chars "Malaria" ∧
    specExtractDisease malariaHivHeadline = chars "Malaria" ∧
    extractDisease hivFirstOrder malariaHivHeadline ≠
      specExtractDisease malariaHivHeadline := by
  refine ⟨by decide, by decide, by decide, by decide, by decide⟩

theorem lowerStr_append (a b : List Char) :
    lowerStr (a ++ b) = lowerStr a ++ lowerStr b :=
  List.map_append _ _ _

theorem containsSub_append_left (n h k : List Char)
    (hx : containsSub n (lowerStr h) = true) :
    containsSub n (lowerStr (h ++ k)) = true := by
  rw [containsSub_iff] at hx ⊢
  rw [lowerStr_append]
  exact hx.trans (List.prefix_append _ _).isInfix

theorem keywordScore_le_two (h : List Char) : keywordScore h ≤ 2 := by
  unfold keywordScore
  split_ifs <;> omega

theorem keywordScore_append_high (h k : List Char) (hk : k ∈ highSeverityKeywords) :
    keywordScore (h ++ k) = 2 := by
  have hfix : lowerStr k = k :=
    (by decide : ∀ w ∈ highSeverityKeywords, lowerStr w = w) k hk
  have hsub : containsSub k (lowerStr (h ++ k)) = true := by
    rw [containsSub_iff, lowerStr_append]
    have hsuf : k <:+ lowerStr h ++ lowerStr k := by
      rw [hfix]
      exact List.suffix_append _ _
    exact hsuf.isInfix
  have hany : highSeverityKeywords.any (fun w => containsSub w (lowerStr (h ++ k))) = true :=
    List.any_eq_true.mpr ⟨k, hk, hsub⟩
  simp [keywordScore, hany]

theorem find?_superset_ge {α : Type} (f : α → Nat) (p q : α → Bool)
    (hpq : ∀ x, p x = true → q x = true) :
    ∀ l : List α, l.Sorted (fun a b => f b ≤ f a) →
    ∀ a, l.find? p = some a → ∃ b, l.find? q = some b ∧ f a ≤ f b := by
  intro l
  induction l with
  | nil =>
    intro _ a ha
    exact absurd ha (by simp)
  | cons x t ih =>
    intro hs a ha
    rw [List.sorted_cons] at hs
    by_cases hpx : p x
    · rw [List.find?_cons_of_pos _ hpx] at ha
      injection ha with ha
      subst ha
      exact ⟨x, List.find?_cons_of_pos _ (hpq x hpx), le_refl _⟩
    · rw [List.find?_cons_of_neg _ hpx] at ha
      by_cases hqx : q x
      · exact ⟨x, List.find?_cons_of_pos _ hqx, hs.1 a (List.mem_of_find?_eq_some ha)⟩
      · obtain ⟨b, hb, hfb⟩ := ih hs.2 a ha
        exact ⟨b, by rw [List.find?_cons_of_neg _ hqx]; exact hb, hfb⟩

theorem extract_dps_mono (order : List (List Char))
    (hsort : List.Sorted (fun a b => diseasePriorityScore b ≤ diseasePriorityScore a) order)
    (h k : List Char) :
    diseasePriorityScore (extractDisease order h) ≤
      diseasePriorityScore (extractDisease order (h ++ k)) := by
  unfold extractDisease
  cases h1 : order.find? (fun d => containsSub (lowerStr d) (lowerStr h)) with
  | none =>
    cases h2 : order.find? (fun d => containsSub (lowerStr d) (lowerStr (h ++ k))) with
    | none => exact le_refl _
    | some d2 =>
      have hz : diseasePriorityScore (chars "Unknown") = 0 := by decide
      rw [hz]
      exact Nat.zero_le _
  | some d1 =>
    obtain ⟨d2, hd2, hle⟩ :=
      find?_superset_ge diseasePriorityScore _ _
        (fun x hx => containsSub_append_left (lowerStr x) h k hx) order hsort d1 h1
    rw [hd2]
    exact hle

theorem analyzeSeverity_eq (order : List (List Char)) (h : List Char) :
    analyzeSeverity order h =
      severityFromScore (diseasePriorityScore (extractDisease order h) + keywordScore h) :=
  rfl

theorem severityFromScore_mono {m n : Nat} (hmn : m ≤ n) :
    sevRank (severityFromScore m) ≤ sevRank (severityFromScore n) := by
  unfold severityFromScore
  split_ifs <;> simp [sevRank] <;> omega

/-- An iteration order of the disease set that lists Hepatitis first. -/
def hepatitisFirstOrder : List (List Char) :=
  [chars "Hepatitis", chars "Ebola", chars "Malaria", chars "Cholera",
   chars "Tuberculosis", chars "HIV", chars "Measles", chars "Meningitis",
   chars "Rabies", chars "Influenza"]

def junctionHeadline : List Char := chars "Ebola epidemic hepatiti"

/-- Claim C6 counterexample: concatenating the high-severity keyword "surge"
to the headline "Ebola epidemic hepatiti" creates a new disease-name match
("hepatitis") across the junction; with a Hepatitis-first iteration order of
the disease set the extracted disease flips from Ebola to Hepatitis and the
severity tier drops from High to Medium. -/
theorem claim_C6_counterexample :
    hepatitisFirstOrder.Perm allDiseases ∧
    chars "surge" ∈ highSeverityKeywords ∧
    analyzeSeverity hepatitisFirstOrder junctionHeadline = Severity.High ∧
    analyzeSeverity hepatitisFirstOrder (junctionHeadline ++ chars "surge") =
      Severity.Medium ∧
    sevRank (analyzeSeverity hepatitisFirstOrder (junctionHeadline ++ chars "surge")) <
      sevRank (analyzeSeverity hepatitisFirstOrder junctionHeadline) := by
  refine ⟨by decide, by decide, by decide, by decide, by decide⟩

/-- Claim C6 (amended): for every iteration order of the disease table that
lists diseases in non-increasing priority-score order (as any fixed
high-before-medium-before-low order does), concatenating a high-severity
keyword to a headline never lowers the computed severity tier. -/
theorem claim_C6_amended : ∀ order : List (List Char),
    List.Sorted (fun a b => diseasePriorityScore b ≤ diseasePriorityScore a) order →
    ∀ h k : List Char, k ∈ highSeverityKeywords →
    sevRank ((parseHeadline order h).severity) ≤
      sevRank ((parseHeadline order (h ++ k)).severity) := by
  intro order hsort h k hk
  show sevRank (analyzeSeverity order h) ≤ sevRank (analyzeSeverity order (h ++ k))
  rw [analyzeSeverity_eq, analyzeSeverity_eq]
  apply severityFromScore_mono
  have h1 := extract_dps_mono order hsort h k
  have h2 : keywordScore h ≤ keywordScore (h ++ k) := by
    rw [keywordScore_append_high h k hk]
    exact keywordScore_le_two h
  omega

theorem claim_C6_witness :
    List.Sorted (fun a b => diseasePriorityScore b ≤ diseasePriorityScore a)
      allDiseases ∧
    chars "surge" ∈ highSeverityKeywords ∧
    sevRank ((parseHeadline allDiseases junctionHeadline).severity) ≤
      sevRank ((parseHeadline allDiseases (junctionHeadline ++ chars "surge")).severity) := by
  refine ⟨by decide, by decide, ?_⟩
  exact claim_C6_amended allDiseases (by decide) junctionHeadline (chars "surge") (by decide)

def rec1 : OutbreakRecord :=
  { date := some 10, disease := chars "Ebola", severity := Severity.High,
    locCountry := some (chars "Uganda"), locCity := some (chars "Kampala"),
    locIsEastAfrica := true, locIsUganda := true }

def rec2 : OutbreakRecord :=
  { date := some 20, disease := chars "Influenza", severity := Severity.Low,
    locCountry := none, locCity := none,
    locIsEastAfrica := false, locIsUganda := false }

def exDs : List OutbreakRecord := [rec1, rec2]

/-- Claim C3 counterexample: the unrecognized region tag "bogus" is not
reported as a validation error — `get_summary_statistics` silently computes
over the full two-record dataset (total 2) even though only one record is
Uganda- or East-Africa-tagged. -/
theorem claim_C3_counterexample :
    chars "bogus" ≠ chars "uganda" ∧
    chars "bogus" ≠ chars "east_africa" ∧
    regionData exDs (chars "bogus") = exDs ∧
    summaryTotal (getSummaryStatistics exDs (chars "bogus")) = some 2 ∧
    exDs.countP (fun r => r.locIsUganda) = 1 ∧
    exDs.countP (fun r => r.locIsEastAfrica) = 1 := by
  refine ⟨by decide, by decide, by decide, by decide, by decide, by decide⟩

/-- Claim C3 (amended): a region tag other than the accepted spellings
`uganda` and `east_africa` is silently treated as the full dataset by every
aggregation operation — the region dispatch falls through to `self.data` and
no validation error is ever produced. -/
theorem claim_C3_amended : ∀ (ds : List OutbreakRecord) (region : List Char),
    region ≠ chars "uganda" → region ≠ chars "east_africa" →
    regionData ds region = ds ∧
    analyzeDiseaseDistribution ds region = diseaseDistributionCore ds ∧
    (∀ w now, analyzeSeverityTrends ds region w now = severityTrendsCore ds w now) ∧
    (∀ m, getHighPriorityOutbreaks ds region m = highPriorityCore ds m) ∧
    (∀ dz w now, analyzeTemporalPatterns ds region dz w now = temporalCore ds dz w now) ∧
    getSummaryStatistics ds region = summaryCore ds region := by
  intro ds region h1 h2
  have hr : regionData ds region = ds := by
    unfold regionData
    rw [if_neg h1, if_neg h2]
  refine ⟨hr, ?_, ?_, ?_, ?_, ?_⟩
  · unfold analyzeDiseaseDistribution
    rw [hr]
  · intro w now
    unfold analyzeSeverityTrends
    rw [hr]
  · intro m
    unfold getHighPriorityOutbreaks
    rw [hr]
  · intro dz w now
    unfold analyzeTemporalPatterns
    rw [hr]
  · unfold getSummaryStatistics
    rw [hr]

theorem claim_C3_witness :
    regionData exDs (chars "bogus") = exDs ∧
    getSummaryStatistics exDs (chars "bogus") = summaryCore exDs (chars "bogus") := by
  have h := claim_C3_amended exDs (chars "bogus") (by decide) (by decide)
  exact ⟨h.1, h.2.2.2.2.2⟩

deriving instance DecidableEq for Except

def recNoDate : OutbreakRecord :=
  { date := none, disease := chars "Ebola", severity := Severity.Medium,
    locCountry := some (chars "Uganda"), locCity := none,
    locIsEastAfrica := true, locIsUganda := true }

def ds7 : List OutbreakRecord := [recNoDate]

/-- Claim C7 failure: on a non-empty Uganda dataset whose only record has no
date, `analyze_disease_distribution` and `get_summary_statistics` end in the
error case (the `strftime`-on-NaT exception) instead of reporting the
per-disease latest date and the date range as absent; the undated record is
nevertheless counted by the severity-trend counts. -/
theorem claim_C7_failure :
    ds7 ≠ [] ∧
    regionData ds7 (chars "uganda") = ds7 ∧
    analyzeDiseaseDistribution ds7 (chars "uganda") = Except.error () ∧
    getSummaryStatistics ds7 (chars "uganda") = Except.error () ∧
    (severityTrendsCore ds7 none 0).map (fun p => p.2.count) = [0, 1, 0] := by
  refine ⟨by decide, by decide, by decide, by decide, by decide⟩

theorem dateDescLe_total (a b : OutbreakRecord) :
    dateDescLe a b = false → dateDescLe b a = true := by
  unfold dateDescLe
  cases a.date with
  | none =>
    cases b.date with
    | none => intro h; exact absurd h (by simp)
    | some y => intro h; rfl
  | some x =>
    cases b.date with
    | none => intro h; exact absurd h (by simp)
    | some y =>
      intro h
      have hxy := of_decide_eq_false h
      exact decide_eq_true (by omega)

theorem dateDescLe_trans (a b c : OutbreakRecord) :
    dateDescLe a b = true → dateDescLe b c = true → dateDescLe a c = true := by
  unfold dateDescLe
  cases a.date with
  | none =>
    cases b.date with
    | none =>
      cases c.date with
      | none => intro h1 h2; rfl
      | some z => intro h1 h2; exact absurd h2 (by simp)
    | some y => intro h1 h2; exact absurd h1 (by simp)
  | some x =>
    cases b.date with
    | none =>
      cases c.date with
      | none => intro h1 h2; rfl
      | some z => intro h1 h2; exact absurd h2 (by simp)
    | some y =>
      cases c.date with
      | none => intro h1 h2; rfl
      | some z =>
        intro h1 h2
        have g1 := of_decide_eq_true h1
        have g2 := of_decide_eq_true h2
        exact decide_eq_true (by omega)

/-- Claim C5: for every dataset, region tag and `min_severity` among High,
Medium, Low, `get_high_priority_outbreaks` returns exactly the records of
the region-selected set whose severity level is at least the requested level
and whose disease has high priority, sorted by date descending with
date-absent records after all dated records; any other `min_severity` is the
`KeyError` case, never a silent default. -/
theorem claim_C5 : ∀ (ds : List OutbreakRecord) (region m : List Char),
    ((m = chars "High" ∨ m = chars "Medium" ∨ m = chars "Low") →
      ∃ lvl, severityLevels m = some lvl ∧
        ∃ l, getHighPriorityOutbreaks ds region m = Except.ok l ∧
          l.Perm ((regionData ds region).filter (fun r =>
            decide (lvl ≤ sevLevel r.severity) &&
            (diseasePriority r.disease == some (chars "high")))) ∧
          l.Sorted (fun a b => dateDescLe a b = true)) ∧
    (m ≠ chars "High" → m ≠ chars "Medium" → m ≠ chars "Low" →
      getHighPriorityOutbreaks ds region m = Except.error ()) := by
  intro ds region m
  constructor
  · intro hm
    have hlvl : ∃ lvl, severityLevels m = some lvl := by
      rcases hm with rfl | rfl | rfl
      · exact ⟨3, by rfl⟩
      · exact ⟨2, by rfl⟩
      · exact ⟨1, by rfl⟩
    obtain ⟨lvl, hl⟩ := hlvl
    refine ⟨lvl, hl,
      insSort dateDescLe ((regionData ds region).filter (fun r =>
        decide (lvl ≤ sevLevel r.severity) &&
        (diseasePriority r.disease == some (chars "high")))), ?_, ?_, ?_⟩
    · unfold getHighPriorityOutbreaks highPriorityCore
      rw [hl]
    · exact insSort_perm _ _
    · exact insSort_sorted dateDescLe dateDescLe_total dateDescLe_trans _
  · intro h1 h2 h3
    have hl : severityLevels m = none := by
      unfold severityLevels
      rw [if_neg h1, if_neg h2, if_neg h3]
    unfold getHighPriorityOutbreaks highPriorityCore
    rw [hl]

def wds : List OutbreakRecord := [rec1, recNoDate, rec2]

theorem claim_C5_witness :
    (∃ lvl, severityLevels (chars "High") = some lvl ∧
      ∃ l, getHighPriorityOutbreaks wds (chars "uganda") (chars "High") = Except.ok l ∧
        l.Perm ((regionData wds (chars "uganda")).filter (fun r =>
          decide (lvl ≤ sevLevel r.severity) &&
          (diseasePriority r.disease == some (chars "high")))) ∧
        l.Sorted (fun a b => dateDescLe a b = true)) ∧
    getHighPriorityOutbreaks wds (chars "uganda") (chars "bogus") = Except.error () := by
  refine ⟨(claim_C5 wds (chars "uganda") (chars "High")).1 (Or.inl rfl),
    (claim_C5 wds (chars "uganda") (chars "bogus")).2 (by decide) (by decide) (by decide)⟩

theorem cumulFrom_ge : ∀ (cs : List Nat) (acc x : Nat),
    x ∈ cumulFrom acc cs → acc ≤ x := by
  intro cs
  induction cs with
  | nil => intro acc x hx; exact absurd hx (by simp [cumulFrom])
  | cons c t ih =>
    intro acc x hx
    rcases List.mem_cons.mp hx with rfl | hx
    · omega
    · have := ih (acc + c) x hx
      omega

theorem cumulFrom_sorted : ∀ (cs : List Nat) (acc : Nat),
    (cumulFrom acc cs).Sorted (· ≤ ·) := by
  intro cs
  induction cs with
  | nil => intro acc; simp [cumulFrom, List.Sorted]
  | cons c t ih =>
    intro acc
    rw [cumulFrom, List.sorted_cons]
    exact ⟨fun x hx => cumulFrom_ge t (acc + c) x hx, ih (acc + c)⟩

theorem cumulFrom_getLastD : ∀ (cs : List Nat) (acc : Nat),
    (cumulFrom acc cs).getLastD acc = acc + cs.sum := by
  intro cs
  induction cs with
  | nil => intro acc; simp [cumulFrom]
  | cons c t ih =>
    intro acc
    rw [cumulFrom, List.getLastD_cons, ih (acc + c), List.sum_cons]
    omega

theorem sum_map_zero {α : Type} : ∀ u : List α, (u.map (fun _ => (0 : Nat))).sum = 0 := by
  intro u
  induction u with
  | nil => rfl
  | cons a t ih => simp [ih]

theorem sum_map_add {α : Type} (f g : α → Nat) :
    ∀ u : List α, (u.map (fun x => f x + g x)).sum = (u.map f).sum + (u.map g).sum := by
  intro u
  induction u with
  | nil => rfl
  | cons a t ih =>
    simp only [List.map_cons, List.sum_cons, ih]
    omega

theorem sum_map_indicator_zero (a : Int) :
    ∀ u : List Int, a ∉ u →
    (u.map (fun d => if (a == d) = true then 1 else 0)).sum = 0 := by
  intro u
  induction u with
  | nil => intro _; rfl
  | cons b t ih =>
    intro ha
    have hab : a ≠ b := fun h => ha (h ▸ List.mem_cons_self b t)
    have hbeq : (a == b) = false := beq_eq_false_iff_ne.mpr hab
    simp only [List.map_cons, List.sum_cons, hbeq, Bool.false_eq_true, if_false,
      ih (fun h => ha (List.mem_cons_of_mem b h))]

theorem sum_map_indicator_one (a : Int) :
    ∀ u : List Int, u.Nodup → a ∈ u →
    (u.map (fun d => if (a == d) = true then 1 else 0)).sum = 1 := by
  intro u
  induction u with
  | nil => intro _ h; exact absurd h (by simp)
  | cons b t ih =>
    intro hnd hmem
    rw [List.nodup_cons] at hnd
    rcases List.mem_cons.mp hmem with rfl | hmem
    · simp only [List.map_cons, List.sum_cons, beq_self_eq_true, if_true,
        sum_map_indicator_zero a t hnd.1]
    · have hab : a ≠ b := fun h => hnd.1 (h ▸ hmem)
      have hbeq : (a == b) = false := beq_eq_false_iff_ne.mpr hab
      simp only [List.map_cons, List.sum_cons, hbeq, Bool.false_eq_true, if_false,
        ih hnd.2 hmem]

theorem sum_map_countP_eq_length :
    ∀ l : List Int, ∀ u : List Int, u.Nodup → (∀ x ∈ l, x ∈ u) →
    (u.map (fun d => l.countP (fun x => x == d))).sum = l.length := by
  intro l
  induction l with
  | nil =>
    intro u _ _
    simp only [List.countP_nil, sum_map_zero, List.length_nil]
  | cons a t ih =>
    intro u hnd hmem
    have hstep : (u.map (fun d => (a :: t).countP (fun x => x == d))) =
        u.map (fun d => t.countP (fun x => x == d) + if (a == d) = true then 1 else 0) := by
      apply List.map_congr_left
      intro d _
      rw [List.countP_cons]
    rw [hstep, sum_map_add, ih u hnd (fun x hx => hmem x (List.mem_cons_of_mem a hx)),
      sum_map_indicator_one a u hnd (hmem a (List.mem_cons_self a t))]
    simp

theorem uniqueKeepFirst_mem {α : Type} [DecidableEq α] :
    ∀ (l : List α) (x : α), x ∈ uniqueKeepFirst l ↔ x ∈ l := by
  intro l
  induction l with
  | nil => intro x; exact Iff.rfl
  | cons a t ih =>
    intro x
    simp only [uniqueKeepFirst, List.mem_cons, List.mem_filter, ih, decide_eq_true_eq]
    constructor
    · rintro (rfl | ⟨hx, _⟩)
      · exact Or.inl rfl
      · exact Or.inr hx
    · rintro (rfl | hx)
      · exact Or.inl rfl
      · by_cases hxa : x = a
        · exact Or.inl hxa
        · exact Or.inr ⟨hx, hxa⟩

theorem uniqueKeepFirst_nodup {α : Type} [DecidableEq α] :
    ∀ l : List α, (uniqueKeepFirst l).Nodup := by
  intro l
  induction l with
  | nil => simp [uniqueKeepFirst]
  | cons a t ih =>
    rw [uniqueKeepFirst, List.nodup_cons]
    constructor
    · intro hmem
      have hne := (List.mem_filter.mp hmem).2
      simp at hne
    · exact List.Nodup.filter _ ih

theorem countP_date_eq (d : Int) : ∀ data : List OutbreakRecord,
    data.countP (fun r => r.date == some d) =
      (data.filterMap (fun r => r.date)).countP (fun x => x == d) := by
  intro data
  induction data with
  | nil => rfl
  | cons r t ih =>
    cases hr : r.date with
    | none =>
      have h1 : (fun r : OutbreakRecord => r.date) r = none := hr
      rw [List.countP_cons, List.filterMap_cons_none h1, hr, ← ih]
      simp
    | some v =>
      have h1 : (fun r : OutbreakRecord => r.date) r = some v := hr
      rw [List.countP_cons, List.filterMap_cons_some h1, List.countP_cons, hr, ← ih]
      simp

theorem length_filterMap_date : ∀ data : List OutbreakRecord,
    (data.filterMap (fun r => r.date)).length =
      data.countP (fun r => r.date.isSome) := by
  intro data
  induction data with
  | nil => rfl
  | cons r t ih =>
    cases hr : r.date with
    | none =>
      have h1 : (fun r : OutbreakRecord => r.date) r = none := hr
      rw [List.filterMap_cons_none h1, List.countP_cons, hr, ih]
      simp
    | some v =>
      have h1 : (fun r : OutbreakRecord => r.date) r = some v := hr
      have ih2 : (List.filterMap OutbreakRecord.date t).length =
          List.countP (fun r => r.date.isSome) t := ih
      rw [List.filterMap_cons_some h1, List.countP_cons, hr]
      simp [ih2]

theorem tpCumulative_getLastD (data : List OutbreakRecord) :
    (tpCumulative data).getLastD 0 = data.countP (fun r => r.date.isSome) := by
  unfold tpCumulative tpCounts tpDates
  rw [cumulFrom_getLastD]
  have hcongr :
      (insSort (fun a b => decide (a ≤ b))
        (uniqueKeepFirst (data.filterMap (fun r => r.date)))).map
          (fun d => data.countP (fun r => r.date == some d)) =
      (insSort (fun a b => decide (a ≤ b))
        (uniqueKeepFirst (data.filterMap (fun r => r.date)))).map
          (fun d => (data.filterMap (fun r => r.date)).countP (fun x => x == d)) :=
    List.map_congr_left (fun d _ => countP_date_eq d data)
  rw [hcongr]
  have hperm := (insSort_perm (fun a b : Int => decide (a ≤ b))
    (uniqueKeepFirst (data.filterMap (fun r => r.date)))).map
      (fun d => (data.filterMap (fun r => r.date)).countP (fun x => x == d))
  rw [hperm.sum_eq]
  rw [sum_map_countP_eq_length (data.filterMap (fun r => r.date)) _
    (uniqueKeepFirst_nodup _) (fun x hx => (uniqueKeepFirst_mem _ x).mpr hx)]
  rw [length_filterMap_date]
  omega

/-- Claim C9 (amended): the cumulative series of `analyze_temporal_patterns`
is monotonically non-decreasing, and its final value equals the number of
dated records of the filtered set entering the grouping step — the `groupby`
drops records with an absent date, so the final value is not, in general,
the total count of that set. -/
theorem claim_C9_amended : ∀ (ds : List OutbreakRecord) (region : List Char)
    (dz : Option (List Char)) (w : Option Nat) (now : Int),
    ((analyzeTemporalPatterns ds region dz w now).2).Sorted (· ≤ ·) ∧
    ((analyzeTemporalPatterns ds region dz w now).2).getLastD 0 =
      (tpFiltered (regionData ds region) dz w now).countP (fun r => r.date.isSome) := by
  intro ds region dz w now
  constructor
  · show (tpCumulative (tpFiltered (regionData ds region) dz w now)).Sorted (· ≤ ·)
    exact cumulFrom_sorted _ _
  · show (tpCumulative (tpFiltered (regionData ds region) dz w now)).getLastD 0 = _
    exact tpCumulative_getLastD _

def cds : List OutbreakRecord := [rec1, recNoDate]

/-- Claim C9 counterexample: on a two-record Uganda dataset with one undated
record, the filtered set entering the grouping step has two records but the
cumulative series ends at 1 — the undated record is dropped by the grouping,
so the final cumulative value is not the filtered total. -/
theorem claim_C9_counterexample :
    ((analyzeTemporalPatterns cds (chars "uganda") none none 0).2).getLastD 0 = 1 ∧
    (tpFiltered (regionData cds (chars "uganda")) none none 0).length = 2 := by
  refine ⟨by decide, by decide⟩
